import Mathlib

/-!
Verification of the sd_reader repository (an AVR MMC/SD card reader with an
MBR partition parser and a FAT12/16/32 engine) against its natural-language
specification.  The command shell in main.c is under src/ and is embedded
directly; the FAT engine (fat.c), the partition parser (partition.c) and the
card driver (sd_raw.c) are declared and called by main.c but their sources are
not in the repository snapshot, so the definitions that stand for them are
modelled from the specification and marked as such in their doc comments.

Strings from the C code (file names, command buffers) are embedded as
List Char, matching the char-array representation of the source; bytes are
Nat values below 256.
-/

set_option autoImplicit false
set_option maxRecDepth 100000

namespace SdReader

/-- A decoded directory entry as produced by fat_read_dir (struct
fat_dir_entry_struct): main.c reads its long_name, attributes, file_size
fields.  The long_name field holds the decoded long name, or the short 8.3
name when no long name is stored. -/
structure FatDirEntry where
  long_name : List Char
  attributes : Nat
  first_cluster : Nat
  file_size : Nat
deriving DecidableEq

/-- Modelled from the spec: fat.c's directory handle (struct fat_dir_struct)
is not under src/.  Per spec section 4.4 a directory handle carries a cursor
that read_next advances through the decoded logical entries and reset rewinds. -/
structure FatDir where
  entries : List FatDirEntry
  cursor : Nat
deriving DecidableEq

/-- Modelled from the spec: fat.c's fat_reset_dir is not under src/; per spec
section 4.4, reset() rewinds the cursor. -/
def fat_reset_dir (dd : FatDir) : FatDir :=
  { dd with cursor := 0 }

/-- Modelled from the spec: fat.c's fat_read_dir is not under src/; per spec
section 4.4, read_next() decodes one logical entry per call and advances the
cursor, reporting EndOfDirectory (here: none) when the directory is exhausted. -/
def fat_read_dir (dd : FatDir) : Option (FatDirEntry × FatDir) :=
  match dd.entries[dd.cursor]? with
  | none => none
  | some e => some (e, { dd with cursor := dd.cursor + 1 })

/-- The while(fat_read_dir(dd, dir_entry)) loop of find_file_in_dir
(main.c:831-838), written as structural recursion over the entries still in
front of the cursor.  Each iteration consumes one entry (fat_read_dir advances
the cursor); on a strcmp match the cursor is rewound by fat_reset_dir and the
entry returned. -/
def find_dir_loop (name : List Char) : List FatDirEntry → FatDir → Option FatDirEntry × FatDir
  | [], dd => (none, dd)
  | e :: rest, dd =>
    let dd2 := { dd with cursor := dd.cursor + 1 }
    if e.long_name = name then (some e, fat_reset_dir dd2)
    else find_dir_loop name rest dd2

/-- find_file_in_dir (main.c:829-841): iterates fat_read_dir over the
directory, compares each decoded name with strcmp (exact byte equality), and
on a match calls fat_reset_dir and returns the entry; on a miss returns 0
(here: none) with the cursor left wherever the loop stopped. -/
def find_file_in_dir (dd : FatDir) (name : List Char) : Option FatDirEntry × FatDir :=
  find_dir_loop name (dd.entries.drop dd.cursor) dd

/-- An open file handle (struct fat_file_struct) as far as main.c observes it. -/
structure FatFileHandle where
  first_cluster : Nat
  size : Nat
  pos : Nat
deriving DecidableEq

/-- Modelled from the spec: fat.c's fat_open_file is not under src/; per spec
section 4.5, open(filesystem, dir_entry) yields a FileHandle positioned at the
start of the entry's cluster chain. -/
def fat_open_file (e : FatDirEntry) : Option FatFileHandle :=
  some { first_cluster := e.first_cluster, size := e.file_size, pos := 0 }

/-- open_file_in_dir (main.c:843-850): returns 0 (here: none) when
find_file_in_dir misses, else opens the found entry with fat_open_file. -/
def open_file_in_dir (dd : FatDir) (name : List Char) : Option FatFileHandle × FatDir :=
  match find_file_in_dir dd name with
  | (none, dd2) => (none, dd2)
  | (some e, dd2) => (fat_open_file e, dd2)

/-- Lower-casing of an ASCII letter, used only to state what comparison "up to
letter case" means in the specification's claim about name matching. -/
def char_lower (c : Char) : Char :=
  if 'A' ≤ c ∧ c ≤ 'Z' then Char.ofNat (c.toNat + 32) else c

/-- Equality of two names up to ASCII letter case, the comparison the
specification claims find_file_in_dir performs. -/
def names_equal_ignore_case (a b : List Char) : Bool :=
  a.map char_lower == b.map char_lower

/-- The body of read_line (main.c:781-818).  The input list holds the bytes
that arrive on the UART ring buffer before the bounded polling budget runs
out; when a byte is needed and none arrives, the inner poll loop times out and
the function returns 0 (main.c:791-793).  A newline (byte 10) terminates the
line and the accumulated read_length is returned; otherwise the byte is stored
and read_length incremented, until the buffer is one short of full. -/
def read_line_go (buffer_length : Nat) : List Nat → Nat → Nat
  | [], read_length =>
    if read_length < buffer_length - 1 then 0 else read_length
  | c :: rest, read_length =>
    if read_length < buffer_length - 1 then
      if c = 10 then read_length
      else read_line_go buffer_length rest (read_length + 1)
    else read_length

/-- read_line (main.c:781-818): reads one line from the UART into a buffer of
the given length, returning the number of bytes stored, 0 on an empty line and
0 on a receive timeout. -/
def read_line (input : List Nat) (buffer_length : Nat) : Nat :=
  read_line_go buffer_length input 0

/-- The stop condition of cmd_write's read loop (main.c:694-696): after
data_len = read_line(...), the loop breaks exactly when data_len is 0. -/
def cmd_write_stops_on (data_len : Nat) : Bool :=
  data_len == 0

/-- FAT_ATTRIB_DIR, the directory attribute bit tested by the FAT layer. -/
def FAT_ATTRIB_DIR : Nat := 16

/-- The heap of open directory handles: main.c manipulates struct
fat_dir_struct pointers, embedded as numeric handle ids mapped to their
directory states; nextId is the next unused id. -/
structure World where
  dirs : List (Nat × FatDir)
  nextId : Nat

/-- Dereference a directory handle id. -/
def world_lookup (w : World) (id : Nat) : Option FatDir :=
  (w.dirs.find? fun p => p.1 == id).map Prod.snd

/-- Store an updated directory state through a handle id (the in-place
mutation of *dd performed by fat_read_dir during the lookup loop). -/
def world_set (w : World) (id : Nat) (d : FatDir) : World :=
  ⟨w.dirs.map fun p => if p.1 == id then (id, d) else p, w.nextId⟩

/-- Modelled from the spec: fat.c's fat_close_dir is not under src/; closing a
handle releases it, so the id no longer dereferences. -/
def fat_close_dir (w : World) (id : Nat) : World :=
  ⟨w.dirs.filter fun p => p.1 != id, w.nextId⟩

/-- Modelled from the spec: fat.c's fat_open_dir is not under src/; per spec
section 4.4, open(filesystem, dir_entry) yields a fresh DirectoryHandle over
the entry's cluster chain when the entry is a directory.  The sub argument
stands for the filesystem: it gives each directory entry its decoded contents. -/
def fat_open_dir (sub : FatDirEntry → List FatDirEntry) (w : World) (e : FatDirEntry) :
    Option (Nat × World) :=
  if e.attributes &&& FAT_ATTRIB_DIR ≠ 0 then
    some (w.nextId, ⟨(w.nextId, ⟨sub e, 0⟩) :: w.dirs, w.nextId + 1⟩)
  else none

/-- Result of a cmd_cd call: the heap after the call, the final value of the
dd parameter variable local to cmd_cd (the C parameter is a copy of the
caller's pointer), and whether the error message was printed. -/
structure CdResult where
  world : World
  local_dd : Nat
  error_printed : Bool

/-- cmd_cd (main.c:527-549): skips the command prefix, looks the name up in
the directory *dd, and on success opens the subdirectory, closes the old
handle, and assigns the new handle to its by-value parameter dd; on any
failure past the empty-argument check it prints an error. -/
def cmd_cd (sub : FatDirEntry → List FatDirEntry) (w : World) (dd : Nat)
    (command : List Char) : CdResult :=
  let cmd := command.drop 3
  if cmd = [] then ⟨w, dd, false⟩
  else
    match world_lookup w dd with
    | none => ⟨w, dd, true⟩
    | some d =>
      let fr := find_file_in_dir d cmd
      let w2 := world_set w dd fr.2
      match fr.1 with
      | some subdir_entry =>
        match fat_open_dir sub w2 subdir_entry with
        | some r => ⟨fat_close_dir r.2 dd, r.1, false⟩
        | none => ⟨w2, dd, true⟩
      | none => ⟨w2, dd, true⟩

/-- The call site of cmd_cd in exec_cmd (main.c:476): cmd_cd receives the
caller's dd by value and returns void, so after the call the caller's
directory-handle variable still holds the value it held before. -/
def exec_cmd_cd_call (sub : FatDirEntry → List FatDirEntry) (w : World) (dd : Nat)
    (command : List Char) : World × Nat :=
  ((cmd_cd sub w dd command).world, dd)

/-- Modelled from the spec: fat.c's filesystem descriptor is not under src/.
Per spec sections 3 and 4.3 it tracks the cached free-cluster count consumed
by allocate_cluster and the cluster size in bytes
(sectors_per_cluster * bytes_per_sector). -/
structure FatVolume where
  free_clusters : Nat
  cluster_size : Nat
deriving DecidableEq

/-- Modelled from the spec: fat.c's open file state (struct fat_file_struct)
is not under src/.  Per spec sections 3 and 4.5 it carries the bytes stored in
the file, the current byte position, and the number of clusters allocated to
the file's chain. -/
structure FatFile where
  content : List Nat
  pos : Nat
  clusters : Nat
deriving DecidableEq

/-- Modelled from the spec: one byte stored through the buffered sector cache
at the current position (spec section 4.5); positions inside the file
overwrite, the position just past the end appends, and a position beyond the
end first materialises the unwritten hole. -/
def write_byte (fd : FatFile) (b : Nat) : FatFile :=
  { fd with
    content :=
      if fd.pos < fd.content.length then fd.content.set fd.pos b
      else fd.content ++ List.replicate (fd.pos - fd.content.length) 0 ++ [b],
    pos := fd.pos + 1 }

/-- Modelled from the spec: fat.c's fat_write_file is not under src/.  Per
spec section 4.5, write(buffer, length) stores bytes through the cache; when
the current cluster is exhausted and more data remains it allocates the next
cluster via the filesystem (decrementing the free-cluster count), and if
allocation fails it returns the partial count written so far, not an error. -/
def fat_write_file : FatVolume → FatFile → List Nat → FatVolume × FatFile × Nat
  | v, fd, [] => (v, fd, 0)
  | v, fd, b :: rest =>
    if fd.pos < fd.clusters * v.cluster_size then
      let r := fat_write_file v (write_byte fd b) rest
      (r.1, r.2.1, r.2.2 + 1)
    else if 0 < v.free_clusters then
      let r := fat_write_file ⟨v.free_clusters - 1, v.cluster_size⟩
        (write_byte { fd with clusters := fd.clusters + 1 } b) rest
      (r.1, r.2.1, r.2.2 + 1)
    else (v, fd, 0)

/-- Modelled from the spec: fat.c's fat_read_file is not under src/.  Per spec
section 4.5, read(buffer, max_length) returns the stored bytes from the
current position, fewer than requested only at the size boundary, never
padding, and advances the position by the count returned. -/
def fat_read_file (fd : FatFile) (max_length : Nat) : List Nat × FatFile :=
  let bytes := (fd.content.drop fd.pos).take max_length
  (bytes, { fd with pos := fd.pos + bytes.length })

/-- The truncation check of cmd_write (main.c:699): the caller compares the
count returned by fat_write_file against the requested length and reports an
error exactly when they differ. -/
def cmd_write_error_detected (requested returned : Nat) : Bool :=
  returned != requested

/-- Modelled from the spec: a mounted filesystem for the round-trip scenario
of spec section 8: the volume's allocation state plus the directory mapping
each file name to the bytes committed for it (size visible on disk once the
owning entry is rewritten on close, spec sections 3 and 4.5). -/
structure MountedFs where
  vol : FatVolume
  files : List (List Char × List Nat)

/-- Modelled from the spec: fat.c's fat_create_file is not under src/.  Per
spec section 4.4, create_entry adds a directory entry for the name with no
content yet. -/
def fat_create_file (m : MountedFs) (name : List Char) : MountedFs :=
  { m with files := (name, []) :: m.files }

/-- First directory entry carrying the given name. -/
def dir_lookup (files : List (List Char × List Nat)) (name : List Char) : Option (List Nat) :=
  (files.find? fun p => p.1 == name).map Prod.snd

/-- Number of clusters in a chain holding the given number of bytes
(ceil(size / cluster_size), spec section 8). -/
def clusters_for (v : FatVolume) (size : Nat) : Nat :=
  (size + v.cluster_size - 1) / v.cluster_size

/-- Modelled from the spec: opening a file by name (find_file_in_dir followed
by fat_open_file, with the content the directory committed for the entry):
position at 0, chain length derived from the committed size. -/
def fat_open_by_name (m : MountedFs) (name : List Char) : Option FatFile :=
  (dir_lookup m.files name).map fun content =>
    ⟨content, 0, clusters_for m.vol content.length⟩

/-- Rewrite the owning directory entry of the named file with new content. -/
def dir_store : List (List Char × List Nat) → List Char → List Nat → List (List Char × List Nat)
  | [], _, _ => []
  | p :: rest, name, content =>
    if p.1 = name then (name, content) :: rest else p :: dir_store rest name content

/-- Modelled from the spec: fat.c's fat_close_file is not under src/.  Per
spec section 4.5, close() writes back the cache and rewrites the owning
directory entry's size (here: content) field. -/
def fat_close_file (m : MountedFs) (name : List Char) (fd : FatFile) : MountedFs :=
  { m with files := dir_store m.files name fd.content }

/-- The round-trip sequence of spec section 8 as main.c performs it
(main.c:366-408): create the file, open it, write the data, close, reopen,
and read back the full stored size. -/
def round_trip (m : MountedFs) (name : List Char) (data : List Nat) : Option (List Nat) :=
  let m1 := fat_create_file m name
  match fat_open_by_name m1 name with
  | none => none
  | some fd =>
    let r := fat_write_file m1.vol fd data
    let m2 := fat_close_file ⟨r.1, m1.files⟩ name r.2.1
    match fat_open_by_name m2 name with
    | none => none
    | some fd2 => some (fat_read_file fd2 fd2.content.length).1

/-- A block device: a linear array of sectors, each a list of bytes. -/
structure BlockDevice where
  sectors : List (List Nat)

/-- Device size in sectors. -/
def device_size (dev : BlockDevice) : Nat :=
  dev.sectors.length

/-- Sector-granularity read over the device's linear address space. -/
def read_sector (dev : BlockDevice) (i : Nat) : Option (List Nat) :=
  dev.sectors[i]?

/-- The partition selector passed to partition_open: a fixed slot index, or
the auto / whole-device request main.c falls back to (main.c:284-304 first
asks for slot 0 and retries with -1, the superfloppy selector). -/
inductive PartitionSelector where
  | index : Nat → PartitionSelector
  | auto : PartitionSelector
deriving DecidableEq

/-- A raw 16-byte partition-table slot as parsed from sector 0. -/
structure RawPartEntry where
  part_type : Nat
  start_sector : Nat
  sector_count : Nat
deriving DecidableEq

/-- The (start_sector, sector_count) window partition_open yields. -/
structure PartitionEntry where
  start_sector : Nat
  sector_count : Nat
deriving DecidableEq

/-- The fixed boot-signature bytes 0x55 0xAA at offsets 510 and 511 of
sector 0 (spec section 6). -/
def has_boot_signature (sec : List Nat) : Bool :=
  sec[510]? == some 85 && sec[511]? == some 170

/-- Little-endian 32-bit field at the given byte offset. -/
def read_le32 (sec : List Nat) (off : Nat) : Nat :=
  sec.getD off 0 + 256 * sec.getD (off + 1) 0 + 65536 * sec.getD (off + 2) 0 +
    16777216 * sec.getD (off + 3) 0

/-- Modelled from the spec: partition.c is not under src/.  Per spec
section 6, slot i of the table is the 16-byte record at offset 446 + 16*i:
type code at relative offset 4, start sector at 8, sector count at 12, both
little-endian. -/
def parse_entry (sec : List Nat) (i : Nat) : RawPartEntry :=
  ⟨sec.getD (446 + 16 * i + 4) 0,
   read_le32 sec (446 + 16 * i + 8),
   read_le32 sec (446 + 16 * i + 12)⟩

/-- Modelled from the spec: the partition type codes recognized as FAT
(spec section 4.2, "the first non-empty entry recognized as a FAT type"). -/
def is_fat_type (t : Nat) : Bool :=
  t == 1 || t == 4 || t == 6 || t == 11 || t == 12 || t == 14

/-- Modelled from the spec: the slot the selector requests (spec section 4.2):
the entry at the requested index, or the first non-empty FAT-type entry for
the auto selector; an empty (type 0) slot yields none. -/
def selected_entry (sec : List Nat) : PartitionSelector → Option RawPartEntry
  | .index i =>
    if i < 4 then
      let e := parse_entry sec i
      if e.part_type ≠ 0 then some e else none
    else none
  | .auto =>
    ((List.range 4).map (parse_entry sec)).find? fun e =>
      decide (e.part_type ≠ 0) && is_fat_type e.part_type

/-- Modelled from the spec: partition.c's partition_open is not under src/.
Per spec section 4.2 it reads sector 0, checks the boot-signature bytes, and
parses and selects a table slot; if the signature is absent or the requested
slot is empty and the selector requests auto, it treats the entire device as
one partition starting at sector 0 with the device's full size (superfloppy
fallback). -/
def partition_open (dev : BlockDevice) (sel : PartitionSelector) : Option PartitionEntry :=
  match read_sector dev 0 with
  | none => none
  | some sec =>
    if has_boot_signature sec then
      match selected_entry sec sel with
      | some e => some ⟨e.start_sector, e.sector_count⟩
      | none => if sel = .auto then some ⟨0, device_size dev⟩ else none
    else
      if sel = .auto then some ⟨0, device_size dev⟩ else none

/-- Modelled from the spec: fat.c's mount-time FAT width selection is not
under src/.  Per spec sections 4.3 and 8 the width is a pure function of the
computed total cluster count with the fixed thresholds: below 4085 clusters
12-bit, below 65525 clusters 16-bit, otherwise 32-bit; no stored flag is
consulted. -/
def fat_width (total_cluster_count : Nat) : Nat :=
  if total_cluster_count < 4085 then 12
  else if total_cluster_count < 65525 then 16
  else 32

/-! Theorems.  Helper lemmas about the embedded operations come first, then
one theorem per claim of the specification, each with its witness where the
theorem carries hypotheses. -/

/-- The lookup loop finds an entry exactly when the queried name occurs
byte-for-byte among the decoded names still in front of the cursor. -/
theorem find_dir_loop_isSome (name : List Char) (l : List FatDirEntry) :
    ∀ dd : FatDir, ((find_dir_loop name l dd).1.isSome = true) ↔
      name ∈ l.map FatDirEntry.long_name := by
  induction l with
  | nil => intro dd; simp [find_dir_loop]
  | cons e rest ih =>
    intro dd
    simp only [find_dir_loop, List.map_cons, List.mem_cons]
    by_cases h : e.long_name = name
    · rw [if_pos h]
      simp [h]
    · rw [if_neg h]
      rw [ih]
      have h2 : ¬ name = e.long_name := fun hh => h hh.symm
      tauto

/-- A lookup miss walks the whole remaining directory: the loop returns none
and leaves the cursor advanced past every entry it consumed. -/
theorem find_dir_loop_miss (name : List Char) (l : List FatDirEntry) :
    ∀ dd : FatDir, name ∉ l.map FatDirEntry.long_name →
      find_dir_loop name l dd = (none, ⟨dd.entries, dd.cursor + l.length⟩) := by
  induction l with
  | nil => intro dd _; simp [find_dir_loop]
  | cons e rest ih =>
    intro dd h
    simp only [List.map_cons, List.mem_cons, not_or] at h
    simp only [find_dir_loop]
    rw [if_neg (fun hh => h.1 hh.symm)]
    rw [ih _ h.2]
    simp only [List.length_cons, Prod.mk.injEq, FatDir.mk.injEq, true_and]
    omega

/-- When the loop returns none without the miss hypothesis, the cursor still
ends past every consumed entry. -/
theorem find_dir_loop_none_cursor (name : List Char) (l : List FatDirEntry) :
    ∀ dd : FatDir, (find_dir_loop name l dd).1 = none →
      (find_dir_loop name l dd).2 = ⟨dd.entries, dd.cursor + l.length⟩ := by
  induction l with
  | nil => intro dd _; simp [find_dir_loop]
  | cons e rest ih =>
    intro dd h
    simp only [find_dir_loop] at h ⊢
    by_cases he : e.long_name = name
    · rw [if_pos he] at h
      simp at h
    · rw [if_neg he] at h ⊢
      rw [ih _ h]
      simp only [List.length_cons, FatDir.mk.injEq, true_and]
      omega

/-- When the loop returns an entry, that entry's decoded name is exactly the
queried name and the cursor has been rewound to 0 by fat_reset_dir. -/
theorem find_dir_loop_found (name : List Char) (l : List FatDirEntry) :
    ∀ (dd : FatDir) (e : FatDirEntry), (find_dir_loop name l dd).1 = some e →
      e.long_name = name ∧ (find_dir_loop name l dd).2.cursor = 0 := by
  induction l with
  | nil => intro dd e h; simp [find_dir_loop] at h
  | cons e0 rest ih =>
    intro dd e h
    simp only [find_dir_loop] at h ⊢
    by_cases he : e0.long_name = name
    · rw [if_pos he] at h ⊢
      simp only [Option.some.injEq] at h
      subst h
      exact ⟨he, rfl⟩
    · rw [if_neg he] at h ⊢
      exact ih _ e h

/-- C1.  The claim states that find_file_in_dir matches names
case-insensitively.  The code (main.c:833) compares with strcmp, which is
exact byte equality: a directory whose single entry is decoded as "A" does not
satisfy the query "a", although the two names are equal up to letter case. -/
theorem C1_counterexample :
    names_equal_ignore_case ['a'] ['A'] = true ∧
    (find_file_in_dir ⟨[⟨['A'], 0, 0, 0⟩], 0⟩ ['a']).1 = none :=
  ⟨by decide, by decide⟩

/-- C1 (amended).  Name lookup in find_file_in_dir is case-sensitive: it
succeeds exactly when the query equals, byte for byte, the decoded
long-or-short name of an entry at or after the cursor (strcmp at main.c:833). -/
theorem C1_lookup_exact_match (dd : FatDir) (name : List Char) :
    ((find_file_in_dir dd name).1.isSome = true) ↔
      name ∈ (dd.entries.drop dd.cursor).map FatDirEntry.long_name :=
  find_dir_loop_isSome name (dd.entries.drop dd.cursor) dd

/-- C7.  A name-lookup miss is an empty result, not an error: when the queried
name is not among the decoded names the cursor has still to traverse,
find_file_in_dir (main.c:829-841) returns 0 and open_file_in_dir
(main.c:843-850) returns a null handle. -/
theorem C7_lookup_miss (dd : FatDir) (name : List Char)
    (h : name ∉ (dd.entries.drop dd.cursor).map FatDirEntry.long_name) :
    (find_file_in_dir dd name).1 = none ∧ (open_file_in_dir dd name).1 = none := by
  have hm := find_dir_loop_miss name (dd.entries.drop dd.cursor) dd h
  have h1 : (find_file_in_dir dd name).1 = none := by
    unfold find_file_in_dir
    rw [hm]
  refine ⟨h1, ?_⟩
  unfold open_file_in_dir find_file_in_dir
  rw [hm]

/-- Witness for C7 at a directory holding the single entry "A" and the absent
query name "b". -/
theorem C7_lookup_miss_witness :
    (find_file_in_dir ⟨[⟨['A'], 0, 0, 0⟩], 0⟩ ['b']).1 = none ∧
    (open_file_in_dir ⟨[⟨['A'], 0, 0, 0⟩], 0⟩ ['b']).1 = none :=
  C7_lookup_miss ⟨[⟨['A'], 0, 0, 0⟩], 0⟩ ['b'] (by decide)

/-- C9.  find_file_in_dir calls fat_reset_dir only when a name matches: on a
hit the returned handle's cursor is rewound to 0 (main.c:835), and on a miss
the loop has exhausted the directory and the cursor is left at its end
(main.c:831-840), so a later read or search on the handle starts there. -/
theorem C9_reset_only_on_match (dd : FatDir) (name : List Char)
    (hc : dd.cursor ≤ dd.entries.length) :
    (∀ e, (find_file_in_dir dd name).1 = some e →
      (find_file_in_dir dd name).2.cursor = 0) ∧
    ((find_file_in_dir dd name).1 = none →
      (find_file_in_dir dd name).2.cursor = dd.entries.length) := by
  constructor
  · intro e h
    exact (find_dir_loop_found name (dd.entries.drop dd.cursor) dd e h).2
  · intro h
    have h2 := find_dir_loop_none_cursor name (dd.entries.drop dd.cursor) dd h
    unfold find_file_in_dir at h2 ⊢
    rw [h2]
    simp only [List.length_drop]
    omega

/-- Witness for C9: a miss ("b") leaves the cursor at the end of the
single-entry directory, and a hit ("A") leaves it rewound to 0. -/
theorem C9_reset_only_on_match_witness :
    (find_file_in_dir ⟨[⟨['A'], 0, 0, 0⟩], 0⟩ ['b']).2.cursor = 1 ∧
    (find_file_in_dir ⟨[⟨['A'], 0, 0, 0⟩], 0⟩ ['A']).2.cursor = 0 :=
  ⟨(C9_reset_only_on_match ⟨[⟨['A'], 0, 0, 0⟩], 0⟩ ['b'] (by decide)).2 (by decide),
   (C9_reset_only_on_match ⟨[⟨['A'], 0, 0, 0⟩], 0⟩ ['A'] (by decide)).1
     ⟨['A'], 0, 0, 0⟩ (by decide)⟩

/-- C10.  read_line (main.c:781-818) returns 0 both on an empty received line
(first byte is the newline 10) and on a receive timeout (no byte arrives
within the polling budget), so its return value cannot distinguish the two;
in particular cmd_write's stop test (main.c:695) fires in both cases. -/
theorem C10_read_line_zero (buffer_length : Nat) (rest : List Nat) :
    read_line (10 :: rest) buffer_length = 0 ∧
    read_line [] buffer_length = 0 ∧
    cmd_write_stops_on (read_line (10 :: rest) buffer_length) = true ∧
    cmd_write_stops_on (read_line [] buffer_length) = true := by
  have h1 : read_line (10 :: rest) buffer_length = 0 := by
    unfold read_line read_line_go
    split <;> simp
  have h2 : read_line [] buffer_length = 0 := by
    unfold read_line read_line_go
    split <;> rfl
  refine ⟨h1, h2, ?_, ?_⟩ <;> simp [h1, h2, cmd_write_stops_on]

/-- Appending one byte at the end position: the stored content grows by
exactly that byte and the position advances. -/
theorem write_byte_append (fd : FatFile) (b : Nat) (h : fd.pos = fd.content.length) :
    write_byte fd b = ⟨fd.content ++ [b], fd.pos + 1, fd.clusters⟩ := by
  unfold write_byte
  rw [if_neg (by omega)]
  simp [h]

/-- Behaviour of the write loop in append mode: some count n of leading bytes
is stored, the count is returned, and the count falls short of the request
only when the free-cluster pool has been exhausted. -/
theorem fat_write_file_spec (cs : Nat) :
    ∀ (data : List Nat) (free clusters : Nat) (content : List Nat),
      ∃ free2 clusters2 n,
        fat_write_file ⟨free, cs⟩ ⟨content, content.length, clusters⟩ data =
          (⟨free2, cs⟩, ⟨content ++ data.take n, content.length + n, clusters2⟩, n) ∧
        n ≤ data.length ∧ (n < data.length → free2 = 0) := by
  intro data
  induction data with
  | nil =>
    intro free clusters content
    refine ⟨free, clusters, 0, ?_, by simp, by simp⟩
    simp [fat_write_file]
  | cons b rest ih =>
    intro free clusters content
    by_cases hcap : content.length < clusters * cs
    · obtain ⟨f2, c2, n, heq, hle, hz⟩ := ih free clusters (content ++ [b])
      refine ⟨f2, c2, n + 1, ?_, by simpa using hle,
        fun hlt => hz (by simp only [List.length_cons] at hlt; omega)⟩
      simp only [fat_write_file]
      rw [if_pos hcap]
      rw [write_byte_append _ _ rfl]
      rw [show (⟨content ++ [b], content.length + 1, clusters⟩ : FatFile) =
        ⟨content ++ [b], (content ++ [b]).length, clusters⟩ by simp]
      rw [heq]
      simp only [Prod.mk.injEq, FatFile.mk.injEq, FatVolume.mk.injEq, true_and, and_true,
        List.take_succ_cons, List.append_assoc, List.singleton_append, List.length_append,
        List.length_cons, List.length_nil]
      omega
    · by_cases hfree : 0 < free
      · obtain ⟨f2, c2, n, heq, hle, hz⟩ := ih (free - 1) (clusters + 1) (content ++ [b])
        refine ⟨f2, c2, n + 1, ?_, by simpa using hle,
          fun hlt => hz (by simp only [List.length_cons] at hlt; omega)⟩
        simp only [fat_write_file]
        rw [if_neg hcap, if_pos hfree]
        rw [write_byte_append _ _ rfl]
        rw [show (⟨content ++ [b], content.length + 1, clusters + 1⟩ : FatFile) =
          ⟨content ++ [b], (content ++ [b]).length, clusters + 1⟩ by simp]
        rw [heq]
        simp only [Prod.mk.injEq, FatFile.mk.injEq, FatVolume.mk.injEq, true_and, and_true,
          List.take_succ_cons, List.append_assoc, List.singleton_append, List.length_append,
          List.length_cons, List.length_nil]
        omega
      · refine ⟨free, clusters, 0, ?_, by simp, fun _ => by omega⟩
        simp only [fat_write_file]
        rw [if_neg hcap, if_neg hfree]
        simp

/-- The write loop stores every requested byte when the cluster slack plus the
free pool can hold the request (positive cluster size case). -/
theorem fat_write_file_all_aux (s : Nat) :
    ∀ (data : List Nat) (free clusters : Nat) (content : List Nat),
      content.length ≤ clusters * (s + 1) →
      data.length ≤ (clusters * (s + 1) - content.length) + free * (s + 1) →
      ∃ free2 clusters2,
        fat_write_file ⟨free, s + 1⟩ ⟨content, content.length, clusters⟩ data =
          (⟨free2, s + 1⟩, ⟨content ++ data, content.length + data.length, clusters2⟩,
            data.length) := by
  intro data
  induction data with
  | nil =>
    intro free clusters content _ _
    refine ⟨free, clusters, ?_⟩
    simp [fat_write_file]
  | cons b rest ih =>
    intro free clusters content h1 h2
    simp only [List.length_cons] at h2
    by_cases hcap : content.length < clusters * (s + 1)
    · obtain ⟨f2, c2, heq⟩ := ih free clusters (content ++ [b])
        (by simp only [List.length_append, List.length_cons, List.length_nil]; omega)
        (by simp only [List.length_append, List.length_cons, List.length_nil]; omega)
      refine ⟨f2, c2, ?_⟩
      simp only [fat_write_file]
      rw [if_pos hcap]
      rw [write_byte_append _ _ rfl]
      rw [show (⟨content ++ [b], content.length + 1, clusters⟩ : FatFile) =
        ⟨content ++ [b], (content ++ [b]).length, clusters⟩ by simp]
      rw [heq]
      simp only [Prod.mk.injEq, FatFile.mk.injEq, FatVolume.mk.injEq, true_and, and_true,
        List.append_assoc, List.singleton_append, List.length_append, List.length_cons,
        List.length_nil]
      omega
    · rcases free with _ | f
      · exfalso
        simp only [Nat.zero_mul] at h2
        omega
      · have e1 : (clusters + 1) * (s + 1) = clusters * (s + 1) + (s + 1) := by ring
        have e2 : (f + 1) * (s + 1) = f * (s + 1) + (s + 1) := by ring
        obtain ⟨f2, c2, heq⟩ := ih f (clusters + 1) (content ++ [b])
          (by simp only [List.length_append, List.length_cons, List.length_nil]; omega)
          (by simp only [List.length_append, List.length_cons, List.length_nil]; omega)
        refine ⟨f2, c2, ?_⟩
        simp only [fat_write_file]
        rw [if_neg hcap, if_pos (by omega)]
        rw [write_byte_append _ _ rfl]
        simp only [Nat.add_sub_cancel]
        rw [show (⟨content ++ [b], content.length + 1, clusters + 1⟩ : FatFile) =
          ⟨content ++ [b], (content ++ [b]).length, clusters + 1⟩ by simp]
        rw [heq]
        simp only [Prod.mk.injEq, FatFile.mk.injEq, FatVolume.mk.injEq, true_and, and_true,
          List.append_assoc, List.singleton_append, List.length_append, List.length_cons,
          List.length_nil]
        omega

/-- The write loop stores every requested byte when the cluster slack plus the
free pool can hold the request. -/
theorem fat_write_file_all (cs : Nat) (data : List Nat) (free clusters : Nat)
    (content : List Nat)
    (h1 : content.length ≤ clusters * cs)
    (h2 : data.length ≤ (clusters * cs - content.length) + free * cs) :
    ∃ free2 clusters2,
      fat_write_file ⟨free, cs⟩ ⟨content, content.length, clusters⟩ data =
        (⟨free2, cs⟩, ⟨content ++ data, content.length + data.length, clusters2⟩,
          data.length) := by
  rcases cs with _ | s
  · simp only [Nat.mul_zero, Nat.sub_zero, Nat.add_zero] at h1 h2
    have hd : data = [] := List.eq_nil_of_length_eq_zero (by omega)
    subst hd
    refine ⟨free, clusters, ?_⟩
    simp [fat_write_file]
  · exact fat_write_file_all_aux s data free clusters content h1 h2

/-- C3.  Partial write on exhaustion is not an error: in append mode
fat_write_file returns the count n of bytes it stored (the file's content is
extended by exactly the first n bytes of the request and the position advances
by n); the count falls short of the request only when cluster allocation
failed (the free pool is empty on return), and cmd_write's check
(main.c:699) flags the write exactly when the returned count differs from the
requested length. -/
theorem C3_partial_write (v : FatVolume) (fd : FatFile) (data : List Nat)
    (happ : fd.pos = fd.content.length) :
    ∃ n, (fat_write_file v fd data).2.2 = n ∧ n ≤ data.length ∧
      (fat_write_file v fd data).2.1.content = fd.content ++ data.take n ∧
      (fat_write_file v fd data).2.1.pos = fd.pos + n ∧
      (n < data.length → (fat_write_file v fd data).1.free_clusters = 0) ∧
      (cmd_write_error_detected data.length n = true ↔ n < data.length) := by
  obtain ⟨free, cs⟩ := v
  obtain ⟨content, pos, clusters⟩ := fd
  simp only at happ
  subst happ
  obtain ⟨f2, c2, n, heq, hle, hz⟩ := fat_write_file_spec cs data free clusters content
  refine ⟨n, ?_, hle, ?_, ?_, ?_, ?_⟩
  · rw [heq]
  · rw [heq]
  · rw [heq]
  · intro hlt
    rw [heq]
    exact hz hlt
  · unfold cmd_write_error_detected
    constructor
    · intro hne
      have : n ≠ data.length := by simpa using hne
      omega
    · intro hlt
      simp
      omega

/-- Witness for C3: a volume with one free 4-byte cluster truncates a 6-byte
request to 4 bytes, stores exactly those 4, leaves no free cluster, and
cmd_write's comparison detects the truncation. -/
theorem C3_partial_write_witness :
    ∃ n, (fat_write_file ⟨1, 4⟩ ⟨[], 0, 0⟩ [1, 2, 3, 4, 5, 6]).2.2 = n ∧
      n ≤ 6 ∧
      (fat_write_file ⟨1, 4⟩ ⟨[], 0, 0⟩ [1, 2, 3, 4, 5, 6]).2.1.content =
        [] ++ [1, 2, 3, 4, 5, 6].take n ∧
      (fat_write_file ⟨1, 4⟩ ⟨[], 0, 0⟩ [1, 2, 3, 4, 5, 6]).2.1.pos = 0 + n ∧
      (n < 6 → (fat_write_file ⟨1, 4⟩ ⟨[], 0, 0⟩ [1, 2, 3, 4, 5, 6]).1.free_clusters = 0) ∧
      (cmd_write_error_detected 6 n = true ↔ n < 6) :=
  C3_partial_write ⟨1, 4⟩ ⟨[], 0, 0⟩ [1, 2, 3, 4, 5, 6] (by decide)

/-- C4.  fat_read_file returns at most the requested count, returns fewer
bytes than requested only when the size boundary has been reached, and every
returned byte is the byte actually stored at the corresponding position, so
the result is never padded. -/
theorem C4_read_eof (fd : FatFile) (max_length : Nat) (h : fd.pos ≤ fd.content.length) :
    (fat_read_file fd max_length).1.length ≤ max_length ∧
    ((fat_read_file fd max_length).1.length < max_length →
      fd.pos + (fat_read_file fd max_length).1.length = fd.content.length) ∧
    (∀ i, i < (fat_read_file fd max_length).1.length →
      (fat_read_file fd max_length).1[i]? = fd.content[fd.pos + i]?) := by
  unfold fat_read_file
  simp only [List.length_take, List.length_drop]
  refine ⟨by omega, by omega, ?_⟩
  intro i hi
  rw [List.getElem?_take_of_lt (by omega), List.getElem?_drop]

/-- Witness for C4: reading 8 bytes from a 3-byte file returns the 3 stored
bytes, short of the request exactly because the end of the file was reached. -/
theorem C4_read_eof_witness :
    (fat_read_file ⟨[7, 8, 9], 0, 1⟩ 8).1.length ≤ 8 ∧
    ((fat_read_file ⟨[7, 8, 9], 0, 1⟩ 8).1.length < 8 →
      0 + (fat_read_file ⟨[7, 8, 9], 0, 1⟩ 8).1.length = 3) ∧
    (∀ i, i < (fat_read_file ⟨[7, 8, 9], 0, 1⟩ 8).1.length →
      (fat_read_file ⟨[7, 8, 9], 0, 1⟩ 8).1[i]? = [7, 8, 9][0 + i]?) := by
  have h := C4_read_eof ⟨[7, 8, 9], 0, 1⟩ 8 (by decide)
  exact h

/-- The first directory slot created for a name is found again by name. -/
theorem dir_lookup_cons_self (files : List (List Char × List Nat)) (name : List Char)
    (content : List Nat) :
    dir_lookup ((name, content) :: files) name = some content := by
  simp [dir_lookup, List.find?]

/-- Rewriting the entry of a name that heads the directory replaces only it. -/
theorem dir_store_cons_self (files : List (List Char × List Nat)) (name : List Char)
    (old new : List Nat) :
    dir_store ((name, old) :: files) name new = (name, new) :: files := by
  simp [dir_store]

/-- An empty file occupies no cluster. -/
theorem clusters_for_zero (v : FatVolume) : clusters_for v 0 = 0 := by
  unfold clusters_for
  rcases hv : v.cluster_size with _ | s
  · simp
  · simpa using Nat.div_eq_of_lt (by omega)

/-- C2.  Round-trip: creating a file, writing content that fits in the free
cluster pool, closing, reopening and reading the full stored size returns
exactly the content written (spec section 8; the sequence main.c:366-408
performs). -/
theorem C2_round_trip (m : MountedFs) (name : List Char) (data : List Nat)
    (hfit : data.length ≤ m.vol.free_clusters * m.vol.cluster_size) :
    round_trip m name data = some data := by
  obtain ⟨⟨free, cs⟩, files⟩ := m
  simp only at hfit
  unfold round_trip
  unfold fat_create_file
  simp only
  rw [show fat_open_by_name ⟨⟨free, cs⟩, (name, []) :: files⟩ name =
    some ⟨[], 0, clusters_for ⟨free, cs⟩ 0⟩ by
      unfold fat_open_by_name
      rw [dir_lookup_cons_self]
      rfl]
  rw [clusters_for_zero]
  obtain ⟨f2, c2, heq⟩ := fat_write_file_all cs data free 0 [] (by simp) (by simpa using hfit)
  simp only [List.length_nil, List.nil_append, Nat.zero_add] at heq
  simp only
  rw [heq]
  unfold fat_close_file
  simp only
  rw [dir_store_cons_self]
  rw [show fat_open_by_name ⟨⟨f2, cs⟩, (name, data) :: files⟩ name =
    some ⟨data, 0, clusters_for ⟨f2, cs⟩ data.length⟩ by
      unfold fat_open_by_name
      rw [dir_lookup_cons_self]
      rfl]
  simp only
  unfold fat_read_file
  simp

/-- Witness for C2: writing five bytes onto a fresh volume with two free
4-byte clusters and reading them back returns them unchanged. -/
theorem C2_round_trip_witness :
    ([1, 2, 3, 4, 5] : List Nat).length ≤ 2 * 4 ∧
    round_trip ⟨⟨2, 4⟩, []⟩ ['f'] [1, 2, 3, 4, 5] = some [1, 2, 3, 4, 5] :=
  ⟨by decide, C2_round_trip ⟨⟨2, 4⟩, []⟩ ['f'] [1, 2, 3, 4, 5] (by decide)⟩

/-- Filtering a handle id out of the heap makes lookups of that id fail. -/
theorem find_filter_ne_none (l : List (Nat × FatDir)) (id : Nat) :
    (l.filter fun p => p.1 != id).find? (fun p => p.1 == id) = none := by
  induction l with
  | nil => rfl
  | cons p rest ih =>
    by_cases hp : p.1 = id
    · simp [List.filter_cons, hp, ih]
    · simp [List.filter_cons, hp, ih, List.find?]

/-- A closed directory handle no longer dereferences. -/
theorem world_lookup_close (w : World) (id : Nat) :
    world_lookup (fat_close_dir w id) id = none := by
  unfold world_lookup fat_close_dir
  rw [find_filter_ne_none]
  rfl

/-- C5.  Superfloppy fallback: with the auto selector, when sector 0 lacks the
boot-signature bytes, or the table carries no usable slot for the request,
partition open yields the single whole-device partition starting at sector 0
with the device's full size (spec section 4.2; main.c:284-304 invokes this
fallback path). -/
theorem C5_superfloppy (dev : BlockDevice) (sec : List Nat)
    (hsec : read_sector dev 0 = some sec)
    (hfail : has_boot_signature sec = false ∨ selected_entry sec .auto = none) :
    partition_open dev .auto = some ⟨0, device_size dev⟩ := by
  unfold partition_open
  rw [hsec]
  rcases hfail with hf | hf
  · simp [hf]
  · by_cases hs : has_boot_signature sec
    · simp [hs, hf]
    · simp [hs]

/-- Witness for C5: a one-sector device whose sector 0 is all zero bytes (no
0x55AA signature) opens as the whole-device partition (start 0, one sector). -/
theorem C5_superfloppy_witness :
    read_sector ⟨[List.replicate 512 0]⟩ 0 = some (List.replicate 512 0) ∧
    partition_open ⟨[List.replicate 512 0]⟩ .auto = some ⟨0, 1⟩ :=
  ⟨by decide,
   C5_superfloppy ⟨[List.replicate 512 0]⟩ (List.replicate 512 0) (by decide)
     (Or.inl (by decide))⟩

/-- C6.  FAT width selection is the pure function fat_width of the computed
total cluster count alone, following the fixed thresholds: below 4085 clusters
12-bit, from 4085 below 65525 16-bit, from 65525 32-bit; no stored flag enters
the decision. -/
theorem C6_fat_width_thresholds (n : Nat) :
    (n < 4085 → fat_width n = 12) ∧
    (4085 ≤ n → n < 65525 → fat_width n = 16) ∧
    (65525 ≤ n → fat_width n = 32) := by
  refine ⟨fun h => ?_, fun h1 h2 => ?_, fun h => ?_⟩ <;>
    · unfold fat_width
      split_ifs <;> omega

/-- Witness for C6 at the boundary counts named by the claim: 4084 clusters
select 12-bit and 4086 clusters select 16-bit. -/
theorem C6_fat_width_thresholds_witness :
    fat_width 4084 = 12 ∧ fat_width 4086 = 16 :=
  ⟨(C6_fat_width_thresholds 4084).1 (by decide),
   (C6_fat_width_thresholds 4086).2.1 (by decide) (by decide)⟩

/-- C8.  cmd_cd receives the directory handle by value (main.c:527): after a
successful directory change the caller's handle variable is unchanged (it
still holds the old handle, which cmd_cd has closed), and the newly opened
handle was assigned only to cmd_cd's local parameter, so the caller's working
directory is never updated. -/
theorem C8_cd_frame (sub : FatDirEntry → List FatDirEntry) (w : World) (dd : Nat)
    (command : List Char) (d : FatDir) (e : FatDirEntry)
    (hdd : world_lookup w dd = some d)
    (hne : command.drop 3 ≠ [])
    (hfind : (find_file_in_dir d (command.drop 3)).1 = some e)
    (hdir : e.attributes &&& FAT_ATTRIB_DIR ≠ 0) :
    (exec_cmd_cd_call sub w dd command).2 = dd ∧
    world_lookup (cmd_cd sub w dd command).world dd = none ∧
    (cmd_cd sub w dd command).local_dd = w.nextId := by
  refine ⟨rfl, ?_⟩
  unfold cmd_cd
  rw [if_neg hne, hdd]
  simp only
  rw [hfind]
  simp only
  unfold fat_open_dir
  rw [if_pos hdir]
  simp only
  exact ⟨world_lookup_close _ dd, rfl⟩

/-- Witness for C8: changing into subdirectory "s" from handle 0 leaves the
caller's variable holding 0, a handle that no longer dereferences, while the
fresh handle 1 lives only in cmd_cd's local parameter. -/
theorem C8_cd_frame_witness :
    (exec_cmd_cd_call (fun _ => []) ⟨[(0, ⟨[⟨['s'], 16, 0, 0⟩], 0⟩)], 1⟩ 0
      ['c', 'd', ' ', 's']).2 = 0 ∧
    world_lookup (cmd_cd (fun _ => []) ⟨[(0, ⟨[⟨['s'], 16, 0, 0⟩], 0⟩)], 1⟩ 0
      ['c', 'd', ' ', 's']).world 0 = none ∧
    (cmd_cd (fun _ => []) ⟨[(0, ⟨[⟨['s'], 16, 0, 0⟩], 0⟩)], 1⟩ 0
      ['c', 'd', ' ', 's']).local_dd = 1 :=
  C8_cd_frame (fun _ => []) ⟨[(0, ⟨[⟨['s'], 16, 0, 0⟩], 0⟩)], 1⟩ 0
    ['c', 'd', ' ', 's'] ⟨[⟨['s'], 16, 0, 0⟩], 0⟩ ⟨['s'], 16, 0, 0⟩
    (by decide) (by decide) (by decide) (by decide)

end SdReader
